import Mathlib

/-!
Verification development for the SpellSentinel crawler
(`spellcheck_crawler.py`).

The Python pipeline is shallowly embedded as executable Lean functions:

* text normalization (`re.sub` whitespace collapse, `str.strip`),
* sentence segmentation (the `re.split` boundary rule of
  `find_spelling_errors`, line 94),
* word tokenization (`re.findall` with word boundaries, line 99),
* the pyspellchecker operations used by the crawler (`unknown`,
  `correction`, with the library's lowercase-by-default behaviour, its
  `_check_if_should_check` guard, and its edit-distance candidate
  generation over the dictionary's letter set),
* `extract_text_from_url` retry loop, `process_url`, and the
  fan-in bookkeeping of `run_spellcheck_audit`.

External effects are turned into explicit data: each HTTP attempt is an
input value (`FetchOutcome`), the visible text produced by BeautifulSoup
for a successful response is the payload of that value, and the
nondeterministic completion order of the thread pool is modelled by the
order of the input task list (no statement below depends on that order).
The spell checker's vocabulary is a parameter `Dict` (a list of
lowercase words with frequencies), matching the spec's note that
vocabulary loading mechanics are out of scope.  Python `set` values are
modelled as duplicate-free lists; no statement below depends on the
iteration order of a set.
-/

namespace SpellSentinel

/-- Whitespace characters of Python's `\s` (ASCII range; the embedded
texts are ASCII): space, tab, newline, carriage return, vertical tab,
form feed. -/
def isPyWs (c : Char) : Bool :=
  c = ' ' || c = '\t' || c = '\n' || c = '\r' || c.toNat = 11 || c.toNat = 12

/-- Word characters of Python's `\w` (ASCII range): letters, digits,
underscore. -/
def isWordChar (c : Char) : Bool :=
  c.isAlpha || c.isDigit || c = '_'

/-- ASCII lowercasing of one character, as Python `str.lower` acts on
ASCII letters. -/
def asciiLower (c : Char) : Char :=
  if 65 ≤ c.toNat ∧ c.toNat ≤ 90 then Char.ofNat (c.toNat + 32) else c

/-- Python `str.lower` on ASCII strings. -/
def lowerStr (s : String) : String :=
  String.mk (s.data.map asciiLower)

/-- Python `str.strip()` on a character list: drop leading and trailing
whitespace. -/
def stripChars (l : List Char) : List Char :=
  ((l.dropWhile isPyWs).reverse.dropWhile isPyWs).reverse

/-- Python `str.strip()`. -/
def stripStr (s : String) : String :=
  String.mk (stripChars s.data)

/-- One pass of `re.sub(r'\s+', ' ', text)`: every maximal run of
whitespace becomes a single space.  The flag records whether the
previous character was whitespace. -/
def collapseWsAux : Bool → List Char → List Char
  | _, [] => []
  | prevWs, c :: cs =>
    if isPyWs c then
      if prevWs then collapseWsAux true cs
      else ' ' :: collapseWsAux true cs
    else c :: collapseWsAux false cs

/-- `re.sub(r'\s+', ' ', text)` (line 84 of the crawler). -/
def collapseWs (s : String) : String :=
  String.mk (collapseWsAux false s.data)

/-! ### Sentence segmentation

Line 94: `re.split(r'(?<!\w\.\w.)(?<![A-Z][a-z]\.)(?<=\.|\?)\s', text)`.
Every match of the pattern is a single whitespace character whose
admissibility is decided by three lookbehinds over the original text, so
`re.split` removes exactly the whitespace characters at which the
lookbehinds hold.  The splitter below scans left to right keeping the
reversed list of already-scanned characters, which is exactly the
context the lookbehinds inspect. -/

/-- The three lookbehinds of the sentence-split pattern, evaluated on the
reversed list of characters preceding the whitespace candidate.
`(?<=\.|\?)` requires the previous character to be `.` or `?`;
`(?<!\w\.\w.)` vetoes a preceding word-char, dot, word-char, any
non-newline character (the regex `.` does not match a newline);
`(?<![A-Z][a-z]\.)` vetoes a preceding capital letter, small letter,
dot. -/
def boundaryPrev : List Char → Bool
  | [] => false
  | p1 :: rest =>
    (p1 = '.' || p1 = '?')
    && !(match rest with
         | p2 :: p3 :: p4 :: _ =>
           isWordChar p4 && p3 = '.' && isWordChar p2 && !(p1 = '\n')
         | _ => false)
    && !(match rest with
         | p2 :: p3 :: _ => p3.isUpper && p2.isLower && p1 = '.'
         | _ => false)

/-- Driver of `re.split` for a pattern matching one whitespace character
under a lookbehind test: walk the text, and whenever the current
character is whitespace and the test accepts the reversed prefix, close
the current piece and drop the whitespace. -/
def splitWithBoundary (test : List Char → Bool) :
    List Char → List Char → List Char → List (List Char)
  | _, acc, [] => [acc.reverse]
  | prev, acc, c :: rest =>
    if isPyWs c && test prev then
      acc.reverse :: splitWithBoundary test (c :: prev) [] rest
    else
      splitWithBoundary test (c :: prev) (c :: acc) rest

/-- The sentence list computed by line 94 of `find_spelling_errors`. -/
def sentenceSplitCode (text : String) : List String :=
  (splitWithBoundary boundaryPrev [] [] text.data).map String.mk

/-! ### Word tokenization

Line 99: `re.findall(r"\b[a-zA-Z\']+\b", sentence)`.  A match starts at
a word boundary, greedily takes characters from `[a-zA-Z']`, and
backtracks until a word boundary also holds after the last taken
character.  `re.findall` then resumes scanning at the end of the match,
or one position further on failure. -/

/-- Characters matched by the token class `[a-zA-Z']`. -/
def isTokChar (c : Char) : Bool :=
  c.isAlpha || c = '\''

/-- Whether the character at index `i` of `t` is a word character
(out-of-range counts as non-word, as at the edges of a Python string). -/
def isWAt (t : List Char) (i : Nat) : Bool :=
  match t.get? i with
  | some c => isWordChar c
  | none => false

/-- Python's `\b` at the cut before index `k`: the word-character status
changes between positions `k - 1` and `k` (the edge of the string is
non-word). -/
def wordBoundary (t : List Char) (k : Nat) : Bool :=
  match k with
  | 0 => isWAt t 0
  | j + 1 => isWAt t j != isWAt t (j + 1)

/-- Greedy backtracking of `[a-zA-Z']+` followed by `\b`: try the match
length `m`, then `m - 1`, ..., returning the first (largest) length at
whose end a word boundary holds. -/
def backtrackEnd (t : List Char) (i : Nat) : Nat → Option Nat
  | 0 => none
  | m + 1 =>
    if wordBoundary t (i + m + 1) then some (m + 1)
    else backtrackEnd t i m

/-- Attempt a match of `\b[a-zA-Z']+\b` starting at index `i`; on
success return the matched characters and the index just after the
match. -/
def tryMatch (t : List Char) (i : Nat) : Option (List Char × Nat) :=
  if wordBoundary t i then
    let n := ((t.drop i).takeWhile isTokChar).length
    match backtrackEnd t i n with
    | some m => some ((t.drop i).take m, i + m)
    | none => none
  else none

/-- Scan of `re.findall`: attempt a match at each position, emitting the
match and resuming after it, or advancing one position on failure.  The
fuel argument only bounds the recursion; `t.length + 1` is always
enough because every step advances the position. -/
def findToksAux (t : List Char) : Nat → Nat → List (List Char)
  | 0, _ => []
  | fuel + 1, i =>
    if i < t.length then
      match tryMatch t i with
      | some (tok, j) => tok :: findToksAux t fuel j
      | none => findToksAux t fuel (i + 1)
    else []

/-- `re.findall(r"\b[a-zA-Z\']+\b", sentence)` (line 99). -/
def findTokens (s : String) : List String :=
  (findToksAux s.data (s.data.length + 1) 0).map String.mk

/-! ### The spell checker

The crawler delegates to pyspellchecker (`spell = SpellChecker(language='en')`,
line 20, with the default `case_sensitive=False` and `distance=2`).  The
loaded word-frequency table is a parameter here: a list of lowercase
words paired with their frequencies (the spec leaves vocabulary-file
loading out of scope).  The library functions used by the crawler are
translated from pyspellchecker's source: `unknown` lowercases the words
it checks, `correction` picks a maximal-frequency known word among
edit-distance-1 candidates, then edit-distance-2 candidates, and the
`_check_if_should_check` guard skips single punctuation characters,
overlong words, and strings Python's `float()` accepts. -/

/-- A loaded word-frequency table: lowercase dictionary words with
their frequencies. -/
def Dict := List (String × Nat)

/-- The dictionary's word set. -/
def dictWords (d : Dict) : List String :=
  d.map Prod.fst

/-- Frequency lookup; pyspellchecker's table is a `Counter`, so a
missing word has frequency 0. -/
def freqD (d : Dict) (w : String) : Nat :=
  match d.find? (fun p => p.1 = w) with
  | some p => p.2
  | none => 0

/-- Length of the longest dictionary word
(`word_frequency.longest_word_length`). -/
def longestWordLength (d : Dict) : Nat :=
  (d.map (fun p => p.1.data.length)).foldr max 0

/-- Remove duplicates keeping first occurrences (a Python `set` built
from a list, as a list; the bookkeeping below never depends on set
iteration order).  The fuel argument only bounds the recursion. -/
def dedupStrAux : Nat → List String → List String
  | 0, _ => []
  | _, [] => []
  | n + 1, x :: xs => x :: dedupStrAux n (xs.filter (fun y => !(y = x : Bool)))

/-- Duplicate-free model of a Python `set` of strings. -/
def dedupStr (l : List String) : List String :=
  dedupStrAux l.length l

/-- The characters occurring in dictionary words
(`word_frequency.letters`, the alphabet used to generate edits). -/
def lettersD (d : Dict) : List Char :=
  (d.foldr (fun p acc => p.1.data ++ acc) []).dedup

/-- Python's `string.punctuation`: ASCII codes 33-47, 58-64, 91-96,
123-126. -/
def isPunctChar (c : Char) : Bool :=
  decide ((33 ≤ c.toNat ∧ c.toNat ≤ 47) ∨ (58 ≤ c.toNat ∧ c.toNat ≤ 64) ∨
    (91 ≤ c.toNat ∧ c.toNat ≤ 96) ∨ (123 ≤ c.toNat ∧ c.toNat ≤ 126))

/-- Whether Python's `float()` accepts the string.  The words reaching
this check are made of ASCII letters and apostrophes (the tokenizer's
class) or are dictionary words, for which `float()` succeeds exactly on
the spellings of infinity and NaN; general numeric literals cannot
occur in this domain and are not modelled. -/
def isFloatWord (w : String) : Bool :=
  lowerStr w = "inf" || lowerStr w = "infinity" || lowerStr w = "nan"

/-- pyspellchecker `_check_if_should_check`: skip one-character
punctuation, words longer than the longest dictionary word plus three,
and float-parsable strings. -/
def shouldCheck (d : Dict) (w : String) : Bool :=
  !(decide (w.data.length = 1) && isPunctChar (w.data.headD ' '))
  && decide (w.data.length ≤ longestWordLength d + 3)
  && !(isFloatWord w)

/-- pyspellchecker `unknown(words)` with the default
`case_sensitive=False`: keep the words passing `_check_if_should_check`,
lowercase them, and return those not in the dictionary, as a set. -/
def pyUnknown (d : Dict) (ws : List String) : List String :=
  dedupStr (((ws.filter (shouldCheck d)).map lowerStr).filter
    (fun w => !(decide (w ∈ dictWords d))))

/-- pyspellchecker `known(words)`: lowercase, keep dictionary members
passing the check, as a set. -/
def knownList (d : Dict) (ws : List String) : List String :=
  dedupStr ((ws.map lowerStr).filter
    (fun w => decide (w ∈ dictWords d) && shouldCheck d w))

/-- The splits `(word[:i], word[i:])` of a word. -/
def splitsOf (l : List Char) : List (List Char × List Char) :=
  (List.range (l.length + 1)).map (fun i => (l.take i, l.drop i))

/-- pyspellchecker `edit_distance_1`: lowercase the word, and unless the
check guard rejects it, collect all deletes, transposes, replaces and
inserts over the dictionary's letter alphabet. -/
def edits1 (d : Dict) (w : String) : List String :=
  let word := (lowerStr w).data
  if !(shouldCheck d (lowerStr w)) then [lowerStr w]
  else
    let letters := lettersD d
    let splits := splitsOf word
    let deletes := splits.filterMap (fun p =>
      match p.2 with
      | [] => none
      | _ :: rt => some (p.1 ++ rt))
    let transposes := splits.filterMap (fun p =>
      match p.2 with
      | a :: b :: rt => some (p.1 ++ b :: a :: rt)
      | _ => none)
    let replaces := splits.flatMap (fun p =>
      match p.2 with
      | [] => []
      | _ :: rt => letters.map (fun c => p.1 ++ c :: rt))
    let inserts := splits.flatMap (fun p => letters.map (fun c => p.1 ++ c :: p.2))
    (deletes ++ transposes ++ replaces ++ inserts).map String.mk

/-- pyspellchecker `edit_distance_2`: the one-edit neighbours of the
one-edit neighbours. -/
def edits2 (d : Dict) (w : String) : List String :=
  (edits1 d w).flatMap (fun e => edits1 d e)

/-- One comparison step of Python `max(iterable, key=frequency)`. -/
def argmaxStep (d : Dict) (best : Option String) (x : String) : Option String :=
  match best with
  | none => some x
  | some b => if freqD d x > freqD d b then some x else some b

/-- Python `max(iterable, key=frequency)`: the first element of maximal
frequency. -/
def argmaxFreq (d : Dict) (l : List String) : Option String :=
  l.foldl (argmaxStep d) none

/-- pyspellchecker `candidates(word)`: the word itself when known or
exempt from checking; otherwise the known one-edit neighbours, then the
known two-edit neighbours, then nothing. -/
def candidatesList (d : Dict) (w : String) : Option (List String) :=
  if decide (lowerStr w ∈ dictWords d) && shouldCheck d (lowerStr w) then some [w]
  else if !(shouldCheck d w) then some [w]
  else
    match knownList d (edits1 d w) with
    | [] =>
      match knownList d (edits2 d w) with
      | [] => none
      | l => some l
    | l => some l

/-- pyspellchecker `correction(word)` (line 105 of the crawler): the
maximal-frequency candidate, or `none` when there are no candidates. -/
def correction (d : Dict) (w : String) : Option String :=
  (candidatesList d w).bind (fun l => argmaxFreq d l)

/-! ### find_spelling_errors (lines 93-108) -/

/-- The whitelist of custom terms (lines 38-39): the literal set,
then filtered by `str.isalpha` (nonempty and all alphabetic). -/
def CUSTOM_IGNORE : List String :=
  (["auraa", "auraadesign", "luxury", "wallart", "faux"]).filter
    (fun w => !(w.data.isEmpty) && w.data.all Char.isAlpha)

/-- A finding as appended on line 106: the (lowercased) word, its
suggested correction, and the sentence context. -/
abbrev Finding := String × Option String × String

/-- The misspelled set of one sentence (line 100):
`spell.unknown(words) - CUSTOM_IGNORE` over the sentence's tokens. -/
def misspelledOf (d : Dict) (sentence : String) : List String :=
  (pyUnknown d (findTokens sentence)).filter
    (fun w => !(decide (w ∈ CUSTOM_IGNORE)))

/-- The loop body of lines 102-106: skip a `(word, sentence)` pair
already seen, otherwise record it and append the finding with the
stripped sentence as context. -/
def findingStep (d : Dict) (sentence : String)
    (st : List (String × String) × List Finding) (w : String) :
    List (String × String) × List Finding :=
  if decide ((w, sentence) ∈ st.1) then st
  else ((w, sentence) :: st.1,
        st.2 ++ [(w, correction d w, stripStr sentence)])

/-- Processing of one sentence: fold the loop body over the sentence's
misspelled words. -/
def sentenceStep (d : Dict)
    (st : List (String × String) × List Finding) (sentence : String) :
    List (String × String) × List Finding :=
  (misspelledOf d sentence).foldl (findingStep d sentence) st

/-- `find_spelling_errors(text)` (lines 93-108): split into sentences,
collect deduplicated findings across the shared `seen` set. -/
def find_spelling_errors (d : Dict) (text : String) : List Finding :=
  ((sentenceSplitCode text).foldl (sentenceStep d) ([], [])).2

/-- Annotated variant of the loop body keeping the sentence un-stripped
in the finding; used to state the dedup invariant, whose `seen` keys
are the un-stripped sentences. -/
def findingStepRaw (d : Dict) (sentence : String)
    (st : List (String × String) × List Finding) (w : String) :
    List (String × String) × List Finding :=
  if decide ((w, sentence) ∈ st.1) then st
  else ((w, sentence) :: st.1, st.2 ++ [(w, correction d w, sentence)])

/-- Annotated variant of the per-sentence fold. -/
def sentenceStepRaw (d : Dict)
    (st : List (String × String) × List Finding) (sentence : String) :
    List (String × String) × List Finding :=
  (misspelledOf d sentence).foldl (findingStepRaw d sentence) st

/-- Annotated variant of `find_spelling_errors` whose findings carry the
un-stripped sentence segment. -/
def findSpellingErrorsRaw (d : Dict) (text : String) : List Finding :=
  ((sentenceSplitCode text).foldl (sentenceStepRaw d) ([], [])).2

/-! ### Fetching (lines 71-90) and per-URL processing (lines 111-127) -/

/-- The observable outcome of one `requests.get` attempt: a raised
exception (transport error or timeout), or a response with a status
code and, for the parsed page, the visible text BeautifulSoup extracts
(`soup.get_text(separator=' ')` after decomposing script, style and
noscript tags) — library behaviour treated as input data. -/
inductive FetchOutcome where
  | exc : FetchOutcome
  | resp : Nat → String → FetchOutcome

/-- Whether an attempt counts as failed for the retry loop: a raised
exception, or a non-200 status (line 75). -/
def fetchFails : FetchOutcome → Bool
  | .exc => true
  | .resp s _ => !(s = 200 : Bool)

/-- The retry loop of `extract_text_from_url` (lines 72-89): consume one
attempt outcome per iteration; a 200 response returns the collapsed and
stripped visible text, anything else moves to the next attempt; after
the given number of attempts return the empty string (line 90). -/
def extractLoop (att : Nat → FetchOutcome) : Nat → Nat → String
  | 0, _ => ""
  | n + 1, i =>
    match att i with
    | .exc => extractLoop att n (i + 1)
    | .resp s body =>
      if (s = 200 : Bool) then stripStr (collapseWs body)
      else extractLoop att n (i + 1)

/-- `RETRY_LIMIT` (line 34). -/
def RETRY_LIMIT : Nat := 3

/-- `extract_text_from_url(url)` (lines 71-90), with the attempt
outcomes as an explicit input sequence. -/
def extract_text_from_url (att : Nat → FetchOutcome) : String :=
  extractLoop att RETRY_LIMIT 0

/-- One row of the findings report as built on lines 121-126: ordered
keys paired with values (the correction can be Python `None`). -/
abbrev Row := List (String × Option String)

/-- The row dictionary of lines 121-126. -/
def mkRow (url w : String) (c : Option String) (ctx : String) : Row :=
  [("URL", some url), ("Misspelled Word", some w),
   ("Suggested Correction (British English)", c), ("Context", some ctx)]

/-- `process_url(url)` (lines 111-127): extract the text, return no
rows when it is empty, otherwise one row per finding. -/
def process_url (d : Dict) (url : String) (att : Nat → FetchOutcome) :
    List Row :=
  let text := extract_text_from_url att
  if text = "" then []
  else (find_spelling_errors d text).map (fun e => mkRow url e.1 e.2.1 e.2.2)

/-! ### run_spellcheck_audit (lines 130-164) -/

/-- One submitted URL task: the URL, its fetch-attempt outcomes, and
whether collecting its future's result raised (a timeout or an
exception during dispatch), which is an external event of the thread
pool. -/
structure UrlTask where
  url : String
  att : Nat → FetchOutcome
  collectFails : Bool

/-- The fan-in loop body (lines 143-154): a collected result extends the
report, a raising future appends the URL to the skipped list. -/
def collectStep (d : Dict) (st : List Row × List String) (t : UrlTask) :
    List Row × List String :=
  if t.collectFails then (st.1, st.2 ++ [t.url])
  else (st.1 ++ process_url d t.url t.att, st.2)

/-- `run_spellcheck_audit()` (lines 130-164): with no URLs the run
returns before any report file is created (modelled as `none`,
lines 133-136); otherwise the report rows and skipped URLs that are
written to the two CSV files.  Completion order of the pool is
modelled by the order of the task list; nothing proved below depends
on it.  -/
def run_spellcheck_audit (d : Dict) (tasks : List UrlTask) :
    Option (List Row × List String) :=
  match tasks with
  | [] => none
  | _ => some (tasks.foldl (collectStep d) ([], []))

/-- The skipped-URLs table written on line 161:
`pd.DataFrame(skipped, columns=["Skipped URLs"])` — a header and one
single-cell row per skipped URL. -/
def skippedTable (skipped : List String) : List String × List (List String) :=
  (["Skipped URLs"], skipped.map (fun u => [u]))

/-! ### Spec-side definitions

These definitions follow the wording of the specification, for
comparison with the definitions above that are translated from the
code. -/

/-- Modelled from the spec: the sentence-boundary rule as the spec and
claim C7 state it — "split on whitespace that follows a `.` or `?` not
itself preceded by a single-letter-plus-dot pattern (to avoid splitting
on abbreviations/initials)", i.e. with only the initials guard
(word-char, dot, word-char before the terminator) and no further
condition. -/
def boundaryClaimC7 : List Char → Bool
  | [] => false
  | p1 :: rest =>
    (p1 = '.' || p1 = '?')
    && !(match rest with
         | p2 :: p3 :: p4 :: _ => isWordChar p4 && p3 = '.' && isWordChar p2
         | _ => false)

/-- Modelled from the spec: sentence segmentation under the claimed
boundary rule of C7. -/
def sentenceSplitClaimC7 (text : String) : List String :=
  (splitWithBoundary boundaryClaimC7 [] [] text.data).map String.mk

/-- The amended boundary rule, stated positionally over the preceding
context: the character right before the whitespace is `.` or `?`; the
initials guard (fourth-from-last a word character, third-from-last a
dot, second-from-last a word character, last not a newline) does not
fire; and the two-letter-abbreviation guard (third-from-last a capital
letter, second-from-last a small letter, last a dot) does not fire. -/
def boundaryAmendedC7 (prev : List Char) : Bool :=
  (decide (prev.get? 0 = some '.') || decide (prev.get? 0 = some '?'))
  && !((match prev.get? 3 with | some c => isWordChar c | none => false)
       && decide (prev.get? 2 = some '.')
       && (match prev.get? 1 with | some c => isWordChar c | none => false)
       && !(decide (prev.get? 0 = some '\n')))
  && !((match prev.get? 2 with | some c => c.isUpper | none => false)
       && (match prev.get? 1 with | some c => c.isLower | none => false)
       && decide (prev.get? 0 = some '.'))

/-- Sentence segmentation under the amended boundary rule. -/
def sentenceSplitAmendedC7 (text : String) : List String :=
  (splitWithBoundary boundaryAmendedC7 [] [] text.data).map String.mk

/-- Length of a longest common subsequence of two character lists; the
fuel argument only bounds the recursion, the sum of the lengths is
always enough. -/
def lcsLenAux : Nat → List Char → List Char → Nat
  | 0, _, _ => 0
  | _, [], _ => 0
  | _, _, [] => 0
  | f + 1, a :: xs, b :: ys =>
    if a = b then lcsLenAux f xs ys + 1
    else max (lcsLenAux f xs (b :: ys)) (lcsLenAux f (a :: xs) ys)

/-- Length of a longest common subsequence of two character lists. -/
def lcsLen (x y : List Char) : Nat :=
  lcsLenAux (x.length + y.length) x y

/-- Modelled from the spec: the "approximate-string similarity ... on a
0-1 scale" of the SuggestionMatcher contract, as the standard ratio
`2 * M / (len a + len b)` with `M` the longest-common-subsequence
length — the scale difflib-style matchers use.  The crawler itself has
no such similarity computation. -/
def simQ (a b : String) : ℚ :=
  (2 * (lcsLen a.data b.data : ℚ)) / ((a.data.length + b.data.length : ℕ) : ℚ)

/-! ### Proof-support definitions -/

/-- Projection from an annotated finding (carrying the un-stripped
sentence segment) to the finding the code reports: strip the context. -/
def projFinding (e : Finding) : Finding :=
  (e.1, e.2.1, stripStr e.2.2)

/-- Invariant of the dedup bookkeeping in `find_spelling_errors`: every
recorded finding's (word, segment) key is in the `seen` set, and no two
recorded findings share a key. -/
def KeyOk (st : List (String × String) × List Finding) : Prop :=
  (∀ e ∈ st.2, (e.1, e.2.2) ∈ st.1) ∧
  List.Pairwise (fun a b : Finding => ¬(a.1 = b.1 ∧ a.2.2 = b.2.2)) st.2

/-! ### Concrete inputs used by counterexamples and witnesses -/

/-- A small vocabulary containing `the` and `word`. -/
def dictA : Dict := [("the", 100), ("word", 50)]

/-- A small vocabulary containing only `bar`. -/
def dictB : Dict := [("bar", 5)]

/-- A small vocabulary containing `this`, `is`, `bad`. -/
def dictC : Dict := [("this", 10), ("is", 5), ("bad", 5)]

/-- A small vocabulary containing only `of`. -/
def dictD : Dict := [("of", 100)]

/-- An attempt sequence that always raises. -/
def attExc : Nat → FetchOutcome := fun _ => FetchOutcome.exc

/-- An attempt sequence whose first attempt succeeds with a short page
text (12 characters) containing two unknown words. -/
def attOk : Nat → FetchOutcome := fun _ => FetchOutcome.resp 200 "Thiss is bd."

/-- A task whose every fetch attempt raises and whose future is
collected normally. -/
def taskA : UrlTask := ⟨"https://x/a", attExc, false⟩

/-! ## Helper lemmas -/

/-- If every attempt in a window fails, the retry loop over that window
returns the empty string. -/
theorem extractLoop_all_fail (att : Nat → FetchOutcome) :
    ∀ n i, (∀ k, i ≤ k → k < i + n → fetchFails (att k) = true) →
      extractLoop att n i = "" := by
  intro n
  induction n with
  | zero => intro i _; rfl
  | succ m ih =>
    intro i h
    have hi : fetchFails (att i) = true := h i (Nat.le_refl i) (by omega)
    have hrest : ∀ k, i + 1 ≤ k → k < (i + 1) + m → fetchFails (att k) = true :=
      fun k hk1 hk2 => h k (by omega) (by omega)
    unfold extractLoop
    split
    · exact ih (i + 1) hrest
    · next s body hA =>
      rw [hA] at hi
      have hs : ¬ ((s = 200 : Bool) = true) := by
        unfold fetchFails at hi
        simp only [Bool.not_eq_eq_eq_not, Bool.not_true] at hi
        simp [hi]
      rw [if_neg hs]
      exact ih (i + 1) hrest

/-- If every one of the `RETRY_LIMIT` attempts fails, the fetch returns
the empty string. -/
theorem extract_empty_of_all_fail (att : Nat → FetchOutcome)
    (h : ∀ k, k < RETRY_LIMIT → fetchFails (att k) = true) :
    extract_text_from_url att = "" :=
  extractLoop_all_fail att RETRY_LIMIT 0 (fun k _ hk2 => h k (by omega))

/-- A URL whose extracted text is empty contributes no rows. -/
theorem process_url_empty_of_extract (d : Dict) (url : String)
    (att : Nat → FetchOutcome) (h : extract_text_from_url att = "") :
    process_url d url att = [] := by
  unfold process_url
  simp [h]

/-- The skipped accumulator of the fan-in fold collects exactly the
URLs of the tasks whose collection raised. -/
theorem collectFold_snd (d : Dict) :
    ∀ (tasks : List UrlTask) (st : List Row × List String),
      (tasks.foldl (collectStep d) st).2 =
        st.2 ++ (tasks.filter (fun t => t.collectFails)).map (fun t => t.url) := by
  intro tasks
  induction tasks with
  | nil => intro st; simp
  | cons t ts ih =>
    intro st
    simp only [List.foldl_cons]
    rw [ih]
    cases h : t.collectFails with
    | true => simp [collectStep, h, List.filter_cons]
    | false => simp [collectStep, h, List.filter_cons]

/-! ## Claim C6 -/

/-- Claim C6: if sitemap resolution yields zero URLs, the run aborts
before any work — the result is `none`, so neither the findings table
nor the skipped-URLs table is produced (the CSV writes on lines 160-161
are never reached). -/
theorem c6_empty_discovery_aborts (d : Dict) :
    run_spellcheck_audit d [] = none := rfl

/-! ## Claim C10 -/

/-- Claim C10: the fetch-and-extract operation is total — every
transport error or non-200 status consumes one attempt, and when all
`RETRY_LIMIT` attempts fail it returns the empty string, so the page
contributes an empty finding list rather than an error. -/
theorem c10_fetch_never_raises (d : Dict) (url : String)
    (att : Nat → FetchOutcome)
    (h : ∀ k, k < RETRY_LIMIT → fetchFails (att k) = true) :
    extract_text_from_url att = "" ∧ process_url d url att = [] :=
  ⟨extract_empty_of_all_fail att h,
   process_url_empty_of_extract d url att (extract_empty_of_all_fail att h)⟩

/-- Witness for C10 at an always-raising attempt sequence. -/
theorem c10_fetch_never_raises_witness :
    (∀ k, k < RETRY_LIMIT → fetchFails (attExc k) = true) ∧
    extract_text_from_url attExc = "" ∧
    process_url dictC "https://x/a" attExc = [] :=
  ⟨fun _ _ => rfl,
   c10_fetch_never_raises dictC "https://x/a" attExc (fun _ _ => rfl)⟩

/-! ## Claim C3 -/

/-- Claim C3 counterexample: a successfully fetched page whose
normalized text has only 12 characters (< 100) is still spell-checked
and produces findings — `process_url` has no 100-character minimum, it
only short-circuits on empty text. -/
theorem c3_short_text_audited_cex :
    (extract_text_from_url attOk).data.length < 100 ∧
    process_url dictC "https://x/a" attOk ≠ [] := by
  constructor
  · decide
  · decide

/-- Claim C3 (amended): the audit of a page short-circuits (returns the
empty finding sequence, before any spell checking) exactly when the
page's normalized text is empty; there is no 100-character minimum
threshold. -/
theorem c3_empty_text_short_circuit (d : Dict) (url : String)
    (att : Nat → FetchOutcome) (h : extract_text_from_url att = "") :
    process_url d url att = [] :=
  process_url_empty_of_extract d url att h

/-- Witness for the amended C3 at an always-raising attempt sequence. -/
theorem c3_empty_text_short_circuit_witness :
    extract_text_from_url attExc = "" ∧
    process_url dictC "https://x/b" attExc = [] :=
  ⟨rfl, c3_empty_text_short_circuit dictC "https://x/b" attExc rfl⟩

/-! ## Claim C1 -/

/-- Claim C1 counterexample: a URL whose every fetch attempt fails does
NOT appear in the skipped sequence.  Every attempt of `taskA` raises,
its future is collected normally (no dispatch timeout), and the run
ends with an empty skipped list — the URL was downgraded to an empty
finding list instead of being recorded as skipped. -/
theorem c1_retry_exhaustion_not_skipped_cex :
    RETRY_LIMIT = 3 ∧
    fetchFails (taskA.att 0) = true ∧ fetchFails (taskA.att 1) = true ∧
    fetchFails (taskA.att 2) = true ∧ taskA.collectFails = false ∧
    taskA.url = "https://x/a" ∧
    run_spellcheck_audit dictC [taskA] = some ([], []) := by
  refine ⟨rfl, rfl, rfl, rfl, rfl, rfl, ?_⟩
  decide

/-- Claim C1 (amended): for every URL whose fetch fails on all
`RETRY_LIMIT` attempts, no page content reaches the audit stage (the
URL contributes an empty finding list); the URL does not appear in the
skipped sequence — that sequence records exactly the URLs whose result
collection raised or timed out. -/
theorem c1_retry_exhaustion_amended (d : Dict) (tasks : List UrlTask)
    (rep : List Row) (sk : List String)
    (h : run_spellcheck_audit d tasks = some (rep, sk)) :
    sk = (tasks.filter (fun t => t.collectFails)).map (fun t => t.url) ∧
    ∀ t ∈ tasks, (∀ k, k < RETRY_LIMIT → fetchFails (t.att k) = true) →
      process_url d t.url t.att = [] := by
  constructor
  · unfold run_spellcheck_audit at h
    cases tasks with
    | nil => exact absurd h (by simp)
    | cons t ts =>
      simp only [Option.some.injEq] at h
      have h2 := congrArg Prod.snd h
      simp only at h2
      rw [← h2, collectFold_snd]
      simp
  · intro t _ hfail
    exact process_url_empty_of_extract d t.url t.att
      (extract_empty_of_all_fail t.att hfail)

/-- Witness for the amended C1 at a one-task run whose fetches all
raise. -/
theorem c1_retry_exhaustion_amended_witness :
    run_spellcheck_audit dictC [taskA] = some ([], []) ∧
    (([] : List String) =
      (([taskA]).filter (fun t => t.collectFails)).map (fun t => t.url) ∧
     ∀ t ∈ [taskA], (∀ k, k < RETRY_LIMIT → fetchFails (t.att k) = true) →
       process_url dictC t.url t.att = []) :=
  ⟨by decide, c1_retry_exhaustion_amended dictC [taskA] [] [] (by decide)⟩

/-! ## Membership lemmas for find_spelling_errors -/

/-- Set-model soundness: deduplication only drops elements. -/
theorem dedupStrAux_subset : ∀ (n : Nat) (l : List String) (x : String),
    x ∈ dedupStrAux n l → x ∈ l := by
  intro n
  induction n with
  | zero => intro l x h; simp [dedupStrAux] at h
  | succ m ih =>
    intro l x h
    cases l with
    | nil => simp [dedupStrAux] at h
    | cons a as =>
      rcases List.mem_cons.mp h with h1 | h1
      · exact h1 ▸ List.mem_cons_self a as
      · exact List.mem_cons_of_mem a (List.mem_of_mem_filter (ih _ x h1))

/-- Soundness for `dedupStr`. -/
theorem dedupStr_subset (l : List String) (x : String)
    (h : x ∈ dedupStr l) : x ∈ l :=
  dedupStrAux_subset l.length l x h

/-- A word reported unknown is the lowercasing of one of the given
tokens and is not in the dictionary. -/
theorem pyUnknown_mem (d : Dict) (ws : List String) (w : String)
    (h : w ∈ pyUnknown d ws) :
    (∃ tok ∈ ws, w = lowerStr tok) ∧ w ∉ dictWords d := by
  unfold pyUnknown at h
  have h1 := dedupStr_subset _ _ h
  have h2 := List.mem_of_mem_filter h1
  have h3 := List.of_mem_filter h1
  simp only [Bool.not_eq_eq_eq_not, Bool.not_true, decide_eq_false_iff_not] at h3
  obtain ⟨tok, htok, rfl⟩ := List.mem_map.mp h2
  exact ⟨⟨tok, List.mem_of_mem_filter htok, rfl⟩, h3⟩

/-- A word in the misspelled set of a sentence is the lowercasing of a
token of that sentence, not in the dictionary, and not in the custom
whitelist. -/
theorem misspelledOf_mem (d : Dict) (s : String) (w : String)
    (h : w ∈ misspelledOf d s) :
    (∃ tok ∈ findTokens s, w = lowerStr tok) ∧
    w ∉ dictWords d ∧ w ∉ CUSTOM_IGNORE := by
  unfold misspelledOf at h
  have h1 := List.mem_of_mem_filter h
  have h2 := List.of_mem_filter h
  simp only [Bool.not_eq_eq_eq_not, Bool.not_true, decide_eq_false_iff_not] at h2
  obtain ⟨ht, hd⟩ := pyUnknown_mem d _ w h1
  exact ⟨ht, hd, h2⟩

/-- Every finding produced by the inner loop over one sentence's
misspelled words either was already recorded, or its word is one of
those misspelled words, its correction comes from `correction`, and its
context is the stripped sentence. -/
theorem findingFold_mem (d : Dict) (s : String) :
    ∀ (ws : List String) (st : List (String × String) × List Finding)
      (e : Finding), e ∈ (ws.foldl (findingStep d s) st).2 →
      e ∈ st.2 ∨ (e.1 ∈ ws ∧ e.2.1 = correction d e.1 ∧ e.2.2 = stripStr s) := by
  intro ws
  induction ws with
  | nil => intro st e h; exact Or.inl h
  | cons w ws ih =>
    intro st e h
    simp only [List.foldl_cons] at h
    rcases ih _ e h with h1 | h1
    · unfold findingStep at h1
      by_cases hc : ((w, s) ∈ st.1)
      · rw [if_pos (by simpa using hc)] at h1
        exact Or.inl h1
      · rw [if_neg (by simpa using hc)] at h1
        simp only at h1
        rcases List.mem_append.mp h1 with h2 | h2
        · exact Or.inl h2
        · simp only [List.mem_singleton] at h2
          subst h2
          exact Or.inr ⟨List.mem_cons_self w ws, rfl, rfl⟩
    · exact Or.inr ⟨List.mem_cons_of_mem w h1.1, h1.2⟩

/-- Every finding produced by the outer loop over the sentences either
was already recorded, or comes from the misspelled set of one of the
sentences with the stripped sentence as context. -/
theorem sentenceFold_mem (d : Dict) :
    ∀ (sents : List String) (st : List (String × String) × List Finding)
      (e : Finding), e ∈ (sents.foldl (sentenceStep d) st).2 →
      e ∈ st.2 ∨ ∃ s ∈ sents, e.1 ∈ misspelledOf d s ∧
        e.2.1 = correction d e.1 ∧ e.2.2 = stripStr s := by
  intro sents
  induction sents with
  | nil => intro st e h; exact Or.inl h
  | cons s ss ih =>
    intro st e h
    simp only [List.foldl_cons] at h
    rcases ih _ e h with h1 | h1
    · unfold sentenceStep at h1
      rcases findingFold_mem d s _ _ e h1 with h2 | h2
      · exact Or.inl h2
      · exact Or.inr ⟨s, List.mem_cons_self s ss, h2⟩
    · obtain ⟨s2, hs2, hrest⟩ := h1
      exact Or.inr ⟨s2, List.mem_cons_of_mem s hs2, hrest⟩

/-- Every reported finding comes from the misspelled set of one of the
text's sentences, with the stripped sentence as its context. -/
theorem find_spelling_errors_mem (d : Dict) (text : String) (e : Finding)
    (h : e ∈ find_spelling_errors d text) :
    ∃ s ∈ sentenceSplitCode text, e.1 ∈ misspelledOf d s ∧
      e.2.1 = correction d e.1 ∧ e.2.2 = stripStr s := by
  unfold find_spelling_errors at h
  rcases sentenceFold_mem d _ _ e h with h1 | h1
  · cases h1
  · exact h1

/-! ## Claim C2 -/

/-- Claim C2 counterexample: the source sentence contains the token
`Teh` (capital T), but the finding reports the lowercased `teh` — the
misspelled-word field does not keep the original casing. -/
theorem c2_case_preservation_cex :
    findTokens "Teh word." = ["Teh", "word"] ∧
    find_spelling_errors dictA "Teh word." =
      [("teh", some "the", "Teh word.")] ∧
    ("teh" : String) ≠ "Teh" := by
  refine ⟨by decide, by decide, by decide⟩

/-- Claim C2 (amended): the misspelled-word field of every finding is
the lowercase form of a token of the source sentence (matching is
case-insensitive and the finding reports the lowercased spelling, not
the token's original casing). -/
theorem c2_word_is_lowercased_token (d : Dict) (text : String) :
    ∀ f ∈ find_spelling_errors d text,
      ∃ s ∈ sentenceSplitCode text, f.2.2 = stripStr s ∧
        ∃ tok ∈ findTokens s, f.1 = lowerStr tok := by
  intro f hf
  obtain ⟨s, hs, hm, _, hctx⟩ := find_spelling_errors_mem d text f hf
  obtain ⟨⟨tok, htok, heq⟩, _, _⟩ := misspelledOf_mem d s f.1 hm
  exact ⟨s, hs, hctx, tok, htok, heq⟩

/-- Witness for the amended C2 at the `Teh word.` page. -/
theorem c2_word_is_lowercased_token_witness :
    (("teh", some "the", "Teh word.") : Finding) ∈
      find_spelling_errors dictA "Teh word." ∧
    (∃ s ∈ sentenceSplitCode "Teh word.",
      (("teh", some "the", "Teh word.") : Finding).2.2 = stripStr s ∧
      ∃ tok ∈ findTokens s,
        (("teh", some "the", "Teh word.") : Finding).1 = lowerStr tok) :=
  ⟨by decide,
   c2_word_is_lowercased_token dictA "Teh word." _ (by decide)⟩

/-! ## Claim C5 -/

/-- Claim C5: for every word present case-insensitively in the
vocabulary — the dictionary or the custom allow-list — the audit never
produces a finding for that word, in any sentence context.  (Findings
report lowercased words, so "a finding for w" is a finding whose word
field is the lowercasing of w.) -/
theorem c5_vocab_member_never_flagged (d : Dict) (text : String)
    (w : String)
    (hv : lowerStr w ∈ dictWords d ∨ lowerStr w ∈ CUSTOM_IGNORE) :
    ∀ f ∈ find_spelling_errors d text, f.1 ≠ lowerStr w := by
  intro f hf heq
  obtain ⟨s, _, hm, _, _⟩ := find_spelling_errors_mem d text f hf
  obtain ⟨_, hd, hi⟩ := misspelledOf_mem d s f.1 hm
  rcases hv with hv | hv
  · exact hd (heq ▸ hv)
  · exact hi (heq ▸ hv)

/-- Witness for C5: `Word` is in the vocabulary case-insensitively and
indeed no finding of the `Teh word.` page reports it; also checks the
custom-list side with `Auraa`. -/
theorem c5_vocab_member_never_flagged_witness :
    (lowerStr "Word" ∈ dictWords dictA ∨ lowerStr "Word" ∈ CUSTOM_IGNORE) ∧
    (∀ f ∈ find_spelling_errors dictA "Teh word.", f.1 ≠ lowerStr "Word") ∧
    (lowerStr "Auraa" ∈ dictWords dictA ∨ lowerStr "Auraa" ∈ CUSTOM_IGNORE) ∧
    (∀ f ∈ find_spelling_errors dictA "Teh word.", f.1 ≠ lowerStr "Auraa") :=
  ⟨Or.inl (by decide),
   c5_vocab_member_never_flagged dictA "Teh word." "Word" (Or.inl (by decide)),
   Or.inr (by decide),
   c5_vocab_member_never_flagged dictA "Teh word." "Auraa" (Or.inr (by decide))⟩

/-! ## Claim C4 -/

/-- The inner loop with stripped contexts is the stripped projection of
the annotated inner loop: both keep the same `seen` set, and the
recorded findings differ only by stripping the context. -/
theorem findingFold_proj (d : Dict) (s : String) :
    ∀ (ws : List String) (st stR : List (String × String) × List Finding),
      st.1 = stR.1 → st.2 = stR.2.map projFinding →
      (ws.foldl (findingStep d s) st).1 =
        (ws.foldl (findingStepRaw d s) stR).1 ∧
      (ws.foldl (findingStep d s) st).2 =
        ((ws.foldl (findingStepRaw d s) stR).2).map projFinding := by
  intro ws
  induction ws with
  | nil => intro st stR h1 h2; exact ⟨h1, h2⟩
  | cons w ws ih =>
    intro st stR h1 h2
    simp only [List.foldl_cons]
    apply ih
    · unfold findingStep findingStepRaw
      rw [h1]
      by_cases hc : ((w, s) ∈ stR.1)
      · rw [if_pos (by simpa using hc), if_pos (by simpa using hc), h1]
      · rw [if_neg (by simpa using hc), if_neg (by simpa using hc)]
    · unfold findingStep findingStepRaw
      rw [h1]
      by_cases hc : ((w, s) ∈ stR.1)
      · rw [if_pos (by simpa using hc), if_pos (by simpa using hc), h2]
      · rw [if_neg (by simpa using hc), if_neg (by simpa using hc)]
        simp only [List.map_append, List.map_cons, List.map_nil]
        rw [h2]
        rfl

/-- The outer loop with stripped contexts is the stripped projection of
the annotated outer loop. -/
theorem sentenceFold_proj (d : Dict) :
    ∀ (sents : List String) (st stR : List (String × String) × List Finding),
      st.1 = stR.1 → st.2 = stR.2.map projFinding →
      (sents.foldl (sentenceStep d) st).1 =
        (sents.foldl (sentenceStepRaw d) stR).1 ∧
      (sents.foldl (sentenceStep d) st).2 =
        ((sents.foldl (sentenceStepRaw d) stR).2).map projFinding := by
  intro sents
  induction sents with
  | nil => intro st stR h1 h2; exact ⟨h1, h2⟩
  | cons s ss ih =>
    intro st stR h1 h2
    simp only [List.foldl_cons]
    apply ih
    · exact (findingFold_proj d s _ st stR h1 h2).1
    · exact (findingFold_proj d s _ st stR h1 h2).2

/-- One step of the annotated loop preserves the dedup invariant. -/
theorem keyOk_step (d : Dict) (s : String)
    (st : List (String × String) × List Finding) (w : String)
    (h : KeyOk st) : KeyOk (findingStepRaw d s st w) := by
  unfold findingStepRaw
  by_cases hc : ((w, s) ∈ st.1)
  · rw [if_pos (by simpa using hc)]
    exact h
  · rw [if_neg (by simpa using hc)]
    constructor
    · intro e he
      rcases List.mem_append.mp he with h1 | h1
      · exact List.mem_cons_of_mem _ (h.1 e h1)
      · simp only [List.mem_singleton] at h1
        subst h1
        exact List.mem_cons_self _ _
    · rw [List.pairwise_append]
      refine ⟨h.2, List.pairwise_singleton _ _, ?_⟩
      intro a ha b hb
      simp only [List.mem_singleton] at hb
      subst hb
      intro ⟨he1, he2⟩
      simp only at he1 he2
      exact hc (by rw [← he1, ← he2]; exact h.1 a ha)

/-- The inner loop preserves the dedup invariant. -/
theorem keyOk_findingFold (d : Dict) (s : String) :
    ∀ (ws : List String) (st : List (String × String) × List Finding),
      KeyOk st → KeyOk (ws.foldl (findingStepRaw d s) st) := by
  intro ws
  induction ws with
  | nil => intro st h; exact h
  | cons w ws ih =>
    intro st h
    simp only [List.foldl_cons]
    exact ih _ (keyOk_step d s st w h)

/-- The outer loop preserves the dedup invariant. -/
theorem keyOk_sentenceFold (d : Dict) :
    ∀ (sents : List String) (st : List (String × String) × List Finding),
      KeyOk st → KeyOk (sents.foldl (sentenceStepRaw d) st) := by
  intro sents
  induction sents with
  | nil => intro st h; exact h
  | cons s ss ih =>
    intro st h
    simp only [List.foldl_cons]
    exact ih _ (keyOk_findingFold d s _ st h)

/-- Claim C4 counterexample: on the text `barr.  barr.` the two split
segments `barr.` and ` barr.` both strip to `barr.`, and the audit
returns two findings with the identical (lowercased word, exact
sentence string) pair — the dedup key uses the un-stripped segment, the
reported sentence is stripped. -/
theorem c4_dedup_cex :
    find_spelling_errors dictB "barr.  barr." =
      [("barr", some "bar", "barr."), ("barr", some "bar", "barr.")] ∧
    (find_spelling_errors dictB "barr.  barr.").get? 0 =
      (find_spelling_errors dictB "barr.  barr.").get? 1 ∧
    (find_spelling_errors dictB "barr.  barr.").get? 0 ≠ none := by
  refine ⟨by decide, by decide, by decide⟩

/-- Claim C4 (amended): within one call, a given (lowercased word,
pre-strip sentence segment) pair yields at most one finding — the
reported findings are the stripped projections of the annotated ones,
and among the annotated findings no two share the same (word, segment)
pair.  Since reported contexts are stripped, two findings may repeat
the same (word, stripped sentence) pair when distinct segments strip to
the same string. -/
theorem c4_dedup_on_raw_segments (d : Dict) (text : String) :
    find_spelling_errors d text =
      (findSpellingErrorsRaw d text).map projFinding ∧
    List.Pairwise
      (fun a b : Finding => ¬(a.1 = b.1 ∧ a.2.2 = b.2.2))
      (findSpellingErrorsRaw d text) := by
  constructor
  · unfold find_spelling_errors findSpellingErrorsRaw
    exact (sentenceFold_proj d _ ([], []) ([], []) rfl rfl).2
  · unfold findSpellingErrorsRaw
    exact (keyOk_sentenceFold d _ ([], [])
      ⟨fun e he => absurd he (List.not_mem_nil e), List.Pairwise.nil⟩).2

/-! ## Claim C7 -/

/-- The regex lookbehind test and the positional amended-rule test
agree on every context. -/
theorem boundaryPrev_eq_amended :
    ∀ prev, boundaryPrev prev = boundaryAmendedC7 prev := by
  intro prev
  match prev with
  | [] => rfl
  | [p1] => simp [boundaryPrev, boundaryAmendedC7]
  | [p1, p2] => simp [boundaryPrev, boundaryAmendedC7]
  | [p1, p2, p3] => simp [boundaryPrev, boundaryAmendedC7]
  | p1 :: p2 :: p3 :: p4 :: rest => simp [boundaryPrev, boundaryAmendedC7]

/-- Two split drivers with pointwise-equal boundary tests produce the
same pieces. -/
theorem splitWithBoundary_congr (t1 t2 : List Char → Bool)
    (hEq : ∀ p, t1 p = t2 p) :
    ∀ (rest prev acc : List Char),
      splitWithBoundary t1 prev acc rest =
        splitWithBoundary t2 prev acc rest := by
  intro rest
  induction rest with
  | nil => intro prev acc; rfl
  | cons c cs ih =>
    intro prev acc
    unfold splitWithBoundary
    rw [hEq prev]
    by_cases h : (isPyWs c && t2 prev) = true
    · rw [if_pos h, if_pos h, ih]
    · rw [if_neg h, if_neg h, ih]

/-- Claim C7 counterexample: on `Dr. Smith went. Bye.` the code does
not split after `Dr.` (the second lookbehind `[A-Z][a-z]\.` vetoes it),
but the claimed rule — whitespace after `.`/`?` with only the
single-letter-plus-dot guard — does split there. -/
theorem c7_split_rule_cex :
    sentenceSplitCode "Dr. Smith went. Bye." =
      ["Dr. Smith went.", "Bye."] ∧
    sentenceSplitClaimC7 "Dr. Smith went. Bye." =
      ["Dr.", "Smith went.", "Bye."] ∧
    sentenceSplitCode "Dr. Smith went. Bye." ≠
      sentenceSplitClaimC7 "Dr. Smith went. Bye." := by
  refine ⟨by decide, by decide, by decide⟩

/-- Claim C7 (amended): sentence segmentation splits exactly at each
whitespace character that immediately follows a `.` or `?`, except
when the four preceding characters are word-char, dot, word-char,
non-newline (the single-letter/initial guard) or the three preceding
characters are capital letter, small letter, dot (the two-letter
abbreviation guard) — and at no other positions. -/
theorem c7_split_positions (text : String) :
    sentenceSplitCode text = sentenceSplitAmendedC7 text := by
  unfold sentenceSplitCode sentenceSplitAmendedC7
  rw [splitWithBoundary_congr boundaryPrev boundaryAmendedC7
    boundaryPrev_eq_amended text.data [] []]

/-! ## Claim C8 -/

/-- Equation lemma for the comparison step at a present base. -/
theorem argmaxStep_some (d : Dict) (b x : String) :
    argmaxStep d (some b) x =
      if freqD d x > freqD d b then some x else some b := rfl

/-- Folding the max-by-frequency step from a present base returns an
element among the base and the list, of maximal frequency. -/
theorem argmaxFold_spec (d : Dict) :
    ∀ (l : List String) (b : String),
      ∃ c, l.foldl (argmaxStep d) (some b) = some c ∧
        (c = b ∨ c ∈ l) ∧ freqD d b ≤ freqD d c ∧
        ∀ x ∈ l, freqD d x ≤ freqD d c := by
  intro l
  induction l with
  | nil =>
    intro b
    exact ⟨b, rfl, Or.inl rfl, Nat.le_refl _, fun x hx => absurd hx (List.not_mem_nil x)⟩
  | cons a as ih =>
    intro b
    simp only [List.foldl_cons]
    by_cases h : freqD d a > freqD d b
    · obtain ⟨c, h1, h2, h3, h4⟩ := ih a
      refine ⟨c, ?_, ?_, ?_, ?_⟩
      · rw [argmaxStep_some, if_pos h]
        exact h1
      · rcases h2 with h2 | h2
        · exact Or.inr (h2 ▸ List.mem_cons_self a as)
        · exact Or.inr (List.mem_cons_of_mem a h2)
      · exact Nat.le_trans (Nat.le_of_lt h) h3
      · intro x hx
        rcases List.mem_cons.mp hx with hx | hx
        · exact hx ▸ h3
        · exact h4 x hx
    · obtain ⟨c, h1, h2, h3, h4⟩ := ih b
      refine ⟨c, ?_, ?_, h3, ?_⟩
      · rw [argmaxStep_some, if_neg h]
        exact h1
      · rcases h2 with h2 | h2
        · exact Or.inl h2
        · exact Or.inr (List.mem_cons_of_mem a h2)
      · intro x hx
        rcases List.mem_cons.mp hx with hx | hx
        · subst hx
          exact Nat.le_trans (Nat.le_of_not_lt h) h3
        · exact h4 x hx

/-- `argmaxFreq` of a nonempty list is one of its elements, of maximal
frequency. -/
theorem argmaxFreq_spec (d : Dict) (l : List String) (h : l ≠ []) :
    ∃ c, argmaxFreq d l = some c ∧ c ∈ l ∧
      ∀ x ∈ l, freqD d x ≤ freqD d c := by
  cases l with
  | nil => exact absurd rfl h
  | cons a as =>
    obtain ⟨c, h1, h2, _, h4⟩ := argmaxFold_spec d as a
    refine ⟨c, ?_, ?_, ?_⟩
    · unfold argmaxFreq
      simpa [argmaxStep] using h1
    · rcases h2 with h2 | h2
      · exact h2 ▸ List.mem_cons_self a as
      · exact List.mem_cons_of_mem a h2
    · intro x hx
      rcases List.mem_cons.mp hx with hx | hx
      · subst hx
        obtain ⟨c2, g1, g2, g3, g4⟩ := argmaxFold_spec d as x
        rw [g1] at h1
        cases h1
        exact g3
      · exact h4 x hx

/-- Every element of a `known` set is a dictionary word. -/
theorem knownList_mem_dict (d : Dict) (ws : List String) (c : String)
    (h : c ∈ knownList d ws) : c ∈ dictWords d := by
  unfold knownList at h
  have h1 := List.of_mem_filter (dedupStr_subset _ _ h)
  simp only [Bool.and_eq_true, decide_eq_true_eq] at h1
  exact h1.1

/-- Claim C8 counterexample: with the vocabulary `{of}` and the unknown
word `fo`, every vocabulary entry has approximate similarity at most
1/2 < 0.8 to the word, yet the code's suggestion operation returns
`of` — it uses pyspellchecker's edit-distance candidates, not a
0.8-similarity threshold. -/
theorem c8_threshold_cex :
    lowerStr "fo" ∉ dictWords dictD ∧
    dictWords dictD = ["of"] ∧
    simQ (lowerStr "fo") "of" < 4 / 5 ∧
    correction dictD "fo" = some "of" := by
  refine ⟨by decide, by decide, ?_, by decide⟩
  have hl : lcsLen (lowerStr "fo").data ("of" : String).data = 1 := by decide
  have h1 : (lowerStr "fo").data.length = 2 := by decide
  have h2 : ("of" : String).data.length = 2 := by decide
  unfold simQ
  rw [hl, h1, h2]
  norm_num

/-- Claim C8 (amended): for an unknown word passing the checker's
guard, the suggestion is a vocabulary entry of maximal frequency among
the known one-edit neighbours of the lowercased word — or, when there
are none, among the known two-edit neighbours — and is `none` exactly
when no vocabulary entry is within two edits; no 0.8-similarity
threshold is involved. -/
theorem c8_correction_characterization (d : Dict) (w : String)
    (h1 : lowerStr w ∉ dictWords d) (h2 : shouldCheck d w = true) :
    (∀ c, correction d w = some c → c ∈ dictWords d ∧
      ((c ∈ knownList d (edits1 d w) ∧
        ∀ x ∈ knownList d (edits1 d w), freqD d x ≤ freqD d c) ∨
       (knownList d (edits1 d w) = [] ∧ c ∈ knownList d (edits2 d w) ∧
        ∀ x ∈ knownList d (edits2 d w), freqD d x ≤ freqD d c))) ∧
    (correction d w = none ↔
      knownList d (edits1 d w) = [] ∧ knownList d (edits2 d w) = []) := by
  have hcand : candidatesList d w =
      match knownList d (edits1 d w) with
      | [] =>
        match knownList d (edits2 d w) with
        | [] => none
        | l => some l
      | l => some l := by
    unfold candidatesList
    rw [if_neg (by simp [h1]), if_neg (by simp [h2])]
  cases hk1 : knownList d (edits1 d w) with
  | cons a as =>
    rw [hk1] at hcand
    have hcorr : correction d w = argmaxFreq d (a :: as) := by
      unfold correction
      rw [hcand]
      rfl
    obtain ⟨c, g1, g2, g3⟩ := argmaxFreq_spec d (a :: as) (by simp)
    constructor
    · intro c2 hc2
      rw [hcorr, g1] at hc2
      cases hc2
      refine ⟨knownList_mem_dict d (edits1 d w) c (by rw [hk1]; exact g2), Or.inl ⟨g2, g3⟩⟩
    · constructor
      · intro hnone
        rw [hcorr, g1] at hnone
        cases hnone
      · intro ⟨he, _⟩
        cases he
  | nil =>
    rw [hk1] at hcand
    cases hk2 : knownList d (edits2 d w) with
    | nil =>
      rw [hk2] at hcand
      have hcorr : correction d w = none := by
        unfold correction
        rw [hcand]
        rfl
      refine ⟨?_, ?_⟩
      · intro c hc
        rw [hcorr] at hc
        cases hc
      · exact ⟨fun _ => ⟨rfl, rfl⟩, fun _ => hcorr⟩
    | cons a as =>
      rw [hk2] at hcand
      have hcorr : correction d w = argmaxFreq d (a :: as) := by
        unfold correction
        rw [hcand]
        rfl
      obtain ⟨c, g1, g2, g3⟩ := argmaxFreq_spec d (a :: as) (by simp)
      constructor
      · intro c2 hc2
        rw [hcorr, g1] at hc2
        cases hc2
        refine ⟨knownList_mem_dict d (edits2 d w) c (by rw [hk2]; exact g2),
          Or.inr ⟨rfl, g2, g3⟩⟩
      · constructor
        · intro hnone
          rw [hcorr, g1] at hnone
          cases hnone
        · intro ⟨_, he⟩
          cases he

/-- Witness for the amended C8 at the vocabulary `{of}` and word
`fo`. -/
theorem c8_correction_characterization_witness :
    lowerStr "fo" ∉ dictWords dictD ∧ shouldCheck dictD "fo" = true ∧
    ((∀ c, correction dictD "fo" = some c → c ∈ dictWords dictD ∧
      ((c ∈ knownList dictD (edits1 dictD "fo") ∧
        ∀ x ∈ knownList dictD (edits1 dictD "fo"),
          freqD dictD x ≤ freqD dictD c) ∨
       (knownList dictD (edits1 dictD "fo") = [] ∧
        c ∈ knownList dictD (edits2 dictD "fo") ∧
        ∀ x ∈ knownList dictD (edits2 dictD "fo"),
          freqD dictD x ≤ freqD dictD c))) ∧
     (correction dictD "fo" = none ↔
       knownList dictD (edits1 dictD "fo") = [] ∧
       knownList dictD (edits2 dictD "fo") = [])) :=
  ⟨by decide, by decide,
   c8_correction_characterization dictD "fo" (by decide) (by decide)⟩

/-! ## Claim C9 -/

/-- Claim C9 counterexample: a concrete audited page produces rows whose
third column is `Suggested Correction (British English)`, not
`Suggested Correction`, and the skipped table's column is
`Skipped URLs`, not `Skipped URL`. -/
theorem c9_columns_cex :
    (process_url dictC "https://x/a" attOk).map (fun r => r.map Prod.fst) =
      [["URL", "Misspelled Word", "Suggested Correction (British English)",
        "Context"],
       ["URL", "Misspelled Word", "Suggested Correction (British English)",
        "Context"]] ∧
    (["URL", "Misspelled Word", "Suggested Correction (British English)",
      "Context"] : List String) ≠
      ["URL", "Misspelled Word", "Suggested Correction", "Context"] ∧
    (skippedTable ["https://x/a"]).1 ≠ ["Skipped URL"] := by
  refine ⟨by decide, by decide, by decide⟩

/-- Claim C9 (amended): every findings row has exactly the columns
{URL, Misspelled Word, Suggested Correction (British English),
Context} in that order (the findings table's header is derived from the
row keys), and the skipped-URLs table has exactly the single column
{Skipped URLs}. -/
theorem c9_report_columns (d : Dict) (url : String)
    (att : Nat → FetchOutcome) :
    (∀ r ∈ process_url d url att,
      r.map Prod.fst =
        ["URL", "Misspelled Word", "Suggested Correction (British English)",
         "Context"]) ∧
    ∀ sk : List String, (skippedTable sk).1 = ["Skipped URLs"] := by
  constructor
  · intro r hr
    unfold process_url at hr
    by_cases h : extract_text_from_url att = ""
    · rw [if_pos h] at hr
      cases hr
    · rw [if_neg h] at hr
      obtain ⟨e, _, rfl⟩ := List.mem_map.mp hr
      rfl
  · intro sk
    rfl

/-- Witness for the amended C9 at a page with findings. -/
theorem c9_report_columns_witness :
    (mkRow "https://x/a" "thiss" (some "this") "Thiss is bd.") ∈
      process_url dictC "https://x/a" attOk ∧
    (mkRow "https://x/a" "thiss" (some "this") "Thiss is bd.").map Prod.fst =
      ["URL", "Misspelled Word", "Suggested Correction (British English)",
       "Context"] :=
  ⟨by decide,
   (c9_report_columns dictC "https://x/a" attOk).1 _ (by decide)⟩

end SpellSentinel
